import Mathlib

/-!
# Household chore platform: task recurrence and assignment engine

Shallow embedding of the two controllers of `mped822/platform`
(`tasks.controller.ts` and `house.controller.ts`) together with the
collaborators they call.  Mongo ObjectIds are modelled as `Nat`, firebase
uids as `String`, timestamps and intervals as `Nat` (seconds).  The task
store is a `List Task`; each endpoint returns the resulting store paired
with an `Except` outcome, so an error outcome leaves the store visibly
unchanged.  JavaScript runtime crashes (property access on `undefined`)
are modelled by the distinguished error `ApiError.jsTypeError`.
-/

namespace Platform

/-- A member document (`user.schema`): mongo `_id`, firebase uid, and the
optional reference to the household the member currently belongs to. -/
structure UserDoc where
  _id : Nat
  firebaseId : String
  house : Option Nat
  deriving DecidableEq, Repr

/-- A household document: mongo `_id` and the `_id` of the owning member. -/
structure House where
  _id : Nat
  owner : Nat
  deriving DecidableEq, Repr

/-- A task document (`task.schema`): owning house, eligible pool (firebase
uids), the currently assigned uid (or unset), recurrence interval in
seconds, due date and optional completion timestamp. -/
structure Task where
  _id : Nat
  house : Nat
  name : String
  description : String
  pool : List String
  assigned : Option String
  interval : Nat
  due_date : Nat
  last_completed : Option Nat
  deriving DecidableEq, Repr

/-- The error taxonomy surfaced by the controllers.  `jsTypeError` stands
for a JavaScript `TypeError` raised by reading a property of `undefined`
(a path the source does not guard). -/
inductive ApiError where
  | notInHouse
  | emptyPool
  | notOwner
  | notAssigned
  | taskNotFound
  | invalidPool
  | jsTypeError
  deriving DecidableEq, Repr

/-- `userStoreService.findOneByFirebaseId`. -/
def findUserByFirebaseId (users : List UserDoc) (uid : String) : Option UserDoc :=
  users.find? (fun u => u.firebaseId == uid)

/-- `houseStoreService.findOne`. -/
def findHouse (houses : List House) (hid : Nat) : Option House :=
  houses.find? (fun h => h._id == hid)

/-- `taskStoreService.findOne`. -/
def findTask (tasks : List Task) (tid : Nat) : Option Task :=
  tasks.find? (fun t => t._id == tid)

/-- `taskStoreService.update` for a whole-record rollback write: replaces
every stored task carrying the given `_id` by the updated record. -/
def updateTask (tasks : List Task) (tid : Nat) (newTask : Task) : List Task :=
  tasks.map (fun t => if t._id == tid then newTask else t)

/-- Modelled from the spec: the Assignment Selector
`selectRandomUser(pool)` of `tasks.util.ts` / `house.util.ts` (source files
absent from the repository snapshot; only their callers are present).
Per section 4.1 it picks a pool element driven by an injectable random
source, and fails with `InvalidPoolError` on an empty pool. -/
def selectRandomUser (rand : Nat) (pool : List String) : Except ApiError String :=
  if h : pool = [] then .error .invalidPool
  else .ok (pool.get ⟨rand % pool.length, Nat.mod_lt _ (List.length_pos.mpr h)⟩)

/-- Modelled from the spec: the Recurrence Evaluator `evaluate(task, now)`
of section 4.2 (implemented in the absent `tasks.util.ts` /
`house.util.ts`).  A task is due once `now >= due_date + interval`; the
rollover advances `due_date` by one interval, resets `last_completed`,
keeps `assigned` when set and otherwise draws a new assignee from the pool
via the Assignment Selector. -/
def evaluate (rand now : Nat) (t : Task) : Bool × Option Task :=
  if t.due_date + t.interval ≤ now then
    (true, some { t with
      due_date := t.due_date + t.interval
      last_completed := none
      assigned := match t.assigned with
        | some a => some a
        | none => (selectRandomUser rand t.pool).toOption })
  else (false, none)

/-- Modelled from the spec: `checkRecurrence(tasks)` of the absent util
files, as called from `getTasksForHouse`: one Recurrence Evaluator pass
over the given tasks, returning for each task flagged due the pair of its
id and its rolled-over record. -/
def checkRecurrence (rand now : Nat) (tasks : List Task) : List (Nat × Task) :=
  tasks.filterMap (fun t => ((evaluate rand now t).2).map (fun u => (t._id, u)))

/-- The create-task request body (`create-task.dto.ts`); `assigned` and
`house` are filled in by the controller before the store call. -/
structure CreateTaskDto where
  name : String
  description : String
  pool : List String
  interval : Nat
  due_date : Nat
  deriving DecidableEq, Repr

/-- The task record persisted by `taskStoreService.create` from a filled-in
create DTO; the store mints the fresh `_id`. -/
def mkTask (freshId houseId : Nat) (dto : CreateTaskDto) (assigned : Option String) : Task where
  _id := freshId
  house := houseId
  name := dto.name
  description := dto.description
  pool := dto.pool
  assigned := assigned
  interval := dto.interval
  due_date := dto.due_date
  last_completed := none

/-- `TasksController.createTask` (tasks.controller.ts, POST /tasks):
resolve the caller, require a household, reject an empty pool, pick the
initial assignee with the Assignment Selector and persist the new task. -/
def createTask (users : List UserDoc) (houses : List House) (rand freshId : Nat)
    (uid : String) (dto : CreateTaskDto) (st : List Task) :
    List Task × Except ApiError Unit :=
  match findUserByFirebaseId users uid with
  | none => (st, .error .jsTypeError)
  | some userDoc =>
    match userDoc.house with
    | none => (st, .error .notInHouse)
    | some hid =>
      match findHouse houses hid with
      | none => (st, .error .notInHouse)
      | some house =>
        if dto.pool.length < 1 then (st, .error .emptyPool)
        else
          match selectRandomUser rand dto.pool with
          | .error e => (st, .error e)
          | .ok a => (st ++ [mkTask freshId house._id dto (some a)], .ok ())

/-- `HouseController.createTask` (house.controller.ts, POST /tasks): same
flow but with no emptiness check on the pool before invoking the
Assignment Selector. -/
def houseCreateTask (users : List UserDoc) (houses : List House) (rand freshId : Nat)
    (uid : String) (dto : CreateTaskDto) (st : List Task) :
    List Task × Except ApiError Unit :=
  match findUserByFirebaseId users uid with
  | none => (st, .error .jsTypeError)
  | some userDoc =>
    match userDoc.house with
    | none => (st, .error .notInHouse)
    | some hid =>
      match findHouse houses hid with
      | none => (st, .error .notInHouse)
      | some house =>
        match selectRandomUser rand dto.pool with
        | .error e => (st, .error e)
        | .ok a => (st ++ [mkTask freshId house._id dto (some a)], .ok ())

/-- `TasksController.deleteTaskFromHouse` (DELETE /tasks/:id): resolve the
caller and their house, fetch the task, and delete it when the caller owns
their house.  The source never tests whether the house lookup or the task
lookup succeeded: reading `house.owner` or `task._id` of a missing record
raises a JavaScript `TypeError`. -/
def deleteTaskFromHouse (users : List UserDoc) (houses : List House)
    (uid : String) (tid : Nat) (st : List Task) :
    List Task × Except ApiError Unit :=
  match findUserByFirebaseId users uid with
  | none => (st, .error .jsTypeError)
  | some userDoc =>
    match userDoc.house with
    | none => (st, .error .notInHouse)
    | some hid =>
      match findHouse houses hid with
      | none => (st, .error .jsTypeError)
      | some house =>
        if house.owner = userDoc._id then
          match findTask st tid with
          | none => (st, .error .jsTypeError)
          | some task => (st.filter (fun t => !(t._id == task._id)), .ok ())
        else (st, .error .notOwner)

/-- `TasksController.markTaskAsComplete` (PUT /task/:id/completed):
`validId` models `isValidObjectId(id)`; the caller must be the task's
current assignee; then `last_completed` is set to the current instant or
cleared, through a single-field store update. -/
def markTaskAsComplete (now : Nat) (uid : String) (tid : Nat) (isComplete : Bool)
    (validId : Bool) (st : List Task) : List Task × Except ApiError Unit :=
  if !validId then (st, .error .taskNotFound)
  else
    match findTask st tid with
    | none => (st, .error .taskNotFound)
    | some task =>
      if task.assigned ≠ some uid then (st, .error .notAssigned)
      else if isComplete then
        (st.map (fun t => if t._id == task._id then { t with last_completed := some now } else t),
          .ok ())
      else
        (st.map (fun t => if t._id == task._id then { t with last_completed := none } else t),
          .ok ())

/-- The edit request body (`update-house-tasks.dto.ts`): each field may be
omitted. -/
structure UpdateHouseTasksDto where
  name : Option String
  description : Option String
  pool : Option (List String)
  deriving DecidableEq, Repr

/-- The update object `modifyTask` hands to the store: the spread of the
edit DTO plus an `assigned` key that is always explicitly present (the
controller writes it twice), whose value may be `undefined` (`none`). -/
structure TaskEditPayload where
  name : Option String
  description : Option String
  pool : Option (List String)
  assigned : Option String
  deriving DecidableEq, Repr

/-- Modelled from the spec: the Task Store `update(id, partial)` of
section 6 applied to an edit payload (the store service source is absent
from the snapshot).  Every key present in the partial is applied to the
stored record; the payload built by `modifyTask` always carries the
`assigned` key, so its value — `undefined` included — overwrites the
stored field (sections 4.3 and 8: edits that keep or omit the pool still
clear `assigned`). -/
def applyEditPayload (t : Task) (p : TaskEditPayload) : Task where
  _id := t._id
  house := t.house
  name := p.name.getD t.name
  description := p.description.getD t.description
  pool := p.pool.getD t.pool
  assigned := p.assigned
  interval := t.interval
  due_date := t.due_date
  last_completed := t.last_completed

/-- `TasksController.modifyTask` (PUT /task/:id): owner-only edit of name,
description or pool.  The controller rebuilds `assigned`: a fresh
selection from the new pool when one is supplied and it excludes the
current assignee, and `undefined` otherwise. -/
def modifyTask (users : List UserDoc) (houses : List House) (rand : Nat)
    (uid : String) (tid : Nat) (dto : UpdateHouseTasksDto) (st : List Task) :
    List Task × Except ApiError Unit :=
  match findUserByFirebaseId users uid with
  | none => (st, .error .jsTypeError)
  | some userDoc =>
    match userDoc.house with
    | none => (st, .error .notInHouse)
    | some hid =>
      match findHouse houses hid with
      | none => (st, .error .jsTypeError)
      | some house =>
        match findTask st tid with
        | none => (st, .error .taskNotFound)
        | some task =>
          if house.owner ≠ userDoc._id then (st, .error .notOwner)
          else
            match dto.pool with
            | some p =>
              if (task.assigned.map p.contains).getD false then
                (st.map (fun t => if t._id == task._id then
                    applyEditPayload t ⟨dto.name, dto.description, dto.pool, none⟩ else t),
                  .ok ())
              else
                match selectRandomUser rand p with
                | .error e => (st, .error e)
                | .ok a =>
                  (st.map (fun t => if t._id == task._id then
                      applyEditPayload t ⟨dto.name, dto.description, dto.pool, some a⟩ else t),
                    .ok ())
            | none =>
              (st.map (fun t => if t._id == task._id then
                  applyEditPayload t ⟨dto.name, dto.description, dto.pool, none⟩ else t),
                .ok ())

/-- `TasksController.getTasksForHouse` (GET /tasks): load every task,
filter to the caller's house, run `checkRecurrence`, persist each
rollover, then reload everything, filter again and return that fresh
view. -/
def getTasksForHouse (users : List UserDoc) (houses : List House) (rand now : Nat)
    (uid : String) (st : List Task) : List Task × Except ApiError (List Task) :=
  match findUserByFirebaseId users uid with
  | none => (st, .error .jsTypeError)
  | some userDoc =>
    match userDoc.house with
    | none => (st, .error .notInHouse)
    | some hid =>
      match findHouse houses hid with
      | none => (st, .error .notInHouse)
      | some house =>
        let tasksForHouse := st.filter (fun t => t.house == house._id)
        let tasksDue := checkRecurrence rand now tasksForHouse
        let st1 := tasksDue.foldl (fun s p => updateTask s p.1 p.2) st
        (st1, .ok (st1.filter (fun t => t.house == house._id)))

/-- Concrete fixture: the owner of house 1. -/
def ownerDoc : UserDoc where
  _id := 1
  firebaseId := "owner"
  house := some 1

/-- Concrete fixture: a plain member of house 1. -/
def memberDoc : UserDoc where
  _id := 2
  firebaseId := "bob"
  house := some 1

/-- Concrete fixture: house 1, owned by `ownerDoc`. -/
def mainHouse : House where
  _id := 1
  owner := 1

/-- Concrete fixture: an unrelated house 2 with a foreign owner. -/
def otherHouse : House where
  _id := 2
  owner := 3

/-- Concrete fixture: the member directory used in the witnesses. -/
def sampleUsers : List UserDoc := [ownerDoc, memberDoc]

/-- Concrete fixture: the household directory used in the witnesses. -/
def sampleHouses : List House := [mainHouse, otherHouse]

/-- A concrete task used by witnesses: in house 1, due at 100 with
interval 50, assigned to "b". -/
def dishesTask : Task where
  _id := 1
  house := 1
  name := "dishes"
  description := "do the dishes"
  pool := ["b", "c"]
  assigned := some "b"
  interval := 50
  due_date := 100
  last_completed := some 90

/-- A concrete task living in house 2, used by the cross-household
witnesses. -/
def foreignTask : Task where
  _id := 7
  house := 2
  name := "garden"
  description := "mow the lawn"
  pool := ["z"]
  assigned := some "z"
  interval := 10
  due_date := 5
  last_completed := none

/-- A concrete create-task request body with an empty pool. -/
def emptyPoolDto : CreateTaskDto where
  name := "sweep"
  description := "sweep the floor"
  pool := []
  interval := 60
  due_date := 10

end Platform

namespace Platform

/-- Any assignee produced by the selector is a member of the pool. -/
theorem selectRandomUser_mem (rand : Nat) (pool : List String) (x : String)
    (h : selectRandomUser rand pool = .ok x) : x ∈ pool := by
  unfold selectRandomUser at h
  split at h
  · exact absurd h (by simp)
  · simp only [Except.ok.injEq] at h
    exact h ▸ List.get_mem _ _ _

/-- On a non-empty pool the selector succeeds. -/
theorem selectRandomUser_ok (rand : Nat) (pool : List String)
    (h : pool ≠ []) : ∃ x, selectRandomUser rand pool = .ok x ∧ x ∈ pool := by
  unfold selectRandomUser
  split
  · exact absurd (by assumption) h
  · exact ⟨_, rfl, List.get_mem _ _ _⟩

/-- **C1.** At any instant before `due_date + interval` the Recurrence
Evaluator reports the task not due and produces no state change; at
`due_date + interval` or later it reports the task due and produces a
rollover whose new `due_date` is exactly `due_date + interval` and whose
`last_completed` is reset to unset. -/
theorem evaluate_due_boundary (rand now : Nat) (t : Task) :
    (now < t.due_date + t.interval → evaluate rand now t = (false, none)) ∧
    (t.due_date + t.interval ≤ now →
      (evaluate rand now t).1 = true ∧
      ∃ u, (evaluate rand now t).2 = some u ∧
        u.due_date = t.due_date + t.interval ∧
        u.last_completed = none) := by
  constructor
  · intro hlt
    unfold evaluate
    rw [if_neg (by omega)]
  · intro hle
    unfold evaluate
    rw [if_pos hle]
    exact ⟨rfl, _, rfl, rfl, rfl⟩

/-- Witness for C1: `dishesTask` (due date 100, interval 50) evaluated at
149 (not due, no change) and at 150 (due, rollover to 150 with completion
cleared). -/
theorem evaluate_due_boundary_witness :
    (evaluate 0 149 dishesTask = (false, none)) ∧
    ((evaluate 0 150 dishesTask).1 = true ∧
      ∃ u, (evaluate 0 150 dishesTask).2 = some u ∧
        u.due_date = 150 ∧ u.last_completed = none) :=
  ⟨(evaluate_due_boundary 0 149 _).1 (by decide),
   (evaluate_due_boundary 0 150 _).2 (by decide)⟩

/-- **C2.** When a task is due for rollover, the rollover keeps `assigned`
unchanged if it is already set, and otherwise draws the new assignee from
the task's pool through the Assignment Selector (hence an element of the
pool). -/
theorem rollover_assignment (rand now : Nat) (t : Task)
    (hdue : t.due_date + t.interval ≤ now) :
    (∀ a, t.assigned = some a →
      ∃ u, (evaluate rand now t).2 = some u ∧ u.assigned = some a) ∧
    (t.assigned = none → t.pool ≠ [] →
      ∃ u x, (evaluate rand now t).2 = some u ∧
        selectRandomUser rand t.pool = .ok x ∧
        u.assigned = some x ∧ x ∈ t.pool) := by
  constructor
  · intro a ha
    unfold evaluate
    rw [if_pos hdue]
    exact ⟨_, rfl, by rw [ha]⟩
  · intro ha hpool
    obtain ⟨x, hsel, hmem⟩ := selectRandomUser_ok rand t.pool hpool
    unfold evaluate
    rw [if_pos hdue]
    refine ⟨_, x, rfl, hsel, ?_, hmem⟩
    simp only [ha, hsel, Except.toOption]

/-- Witness for C2: the due `dishesTask` with `assigned = some "b"` keeps
"b"; the same task with `assigned` unset gets the selector's pick from its
pool. -/
theorem rollover_assignment_witness :
    (∃ u, (evaluate 0 150 dishesTask).2 = some u ∧ u.assigned = some "b") ∧
    (∃ u x, (evaluate 1 150 { dishesTask with assigned := none }).2 = some u ∧
        selectRandomUser 1 ["b", "c"] = .ok x ∧
        u.assigned = some x ∧ x ∈ ["b", "c"]) :=
  ⟨(rollover_assignment 0 150 dishesTask (by decide)).1 "b" rfl,
   (rollover_assignment 1 150 { dishesTask with assigned := none }
      (by decide)).2 rfl (by decide)⟩

/-- **C6.** When a caller who is in a household creates a task with an
empty pool, `TasksController.createTask` fails with the empty-pool
bad-request error and the task store is left unchanged. -/
theorem createTask_empty_pool (users : List UserDoc) (houses : List House)
    (rand freshId : Nat) (uid : String) (dto : CreateTaskDto) (st : List Task)
    (d : UserDoc) (hid : Nat) (house : House)
    (hu : findUserByFirebaseId users uid = some d)
    (hd : d.house = some hid)
    (hh : findHouse houses hid = some house)
    (hp : dto.pool = []) :
    createTask users houses rand freshId uid dto st = (st, .error .emptyPool) := by
  simp [createTask, hu, hd, hh, hp]

/-- Witness for C6: the owner of house 1 submits `emptyPoolDto`; the
request is rejected with `emptyPool` and the store stays `[dishesTask]`. -/
theorem createTask_empty_pool_witness :
    createTask sampleUsers sampleHouses 0 9 "owner" emptyPoolDto [dishesTask] =
      ([dishesTask], .error .emptyPool) :=
  createTask_empty_pool sampleUsers sampleHouses 0 9 "owner" emptyPoolDto
    [dishesTask] ownerDoc 1 mainHouse rfl rfl rfl rfl

/-- **C10.** `HouseController.createTask` has no pool non-emptiness check:
with an empty pool the flow reaches the Assignment Selector, whose
`InvalidPoolError` is what the caller receives — never the controller's
own empty-pool failure (which this endpoint cannot produce). -/
theorem houseCreateTask_no_pool_check (users : List UserDoc) (houses : List House)
    (rand freshId : Nat) (uid : String) (dto : CreateTaskDto) (st : List Task)
    (d : UserDoc) (hid : Nat) (house : House)
    (hu : findUserByFirebaseId users uid = some d)
    (hd : d.house = some hid)
    (hh : findHouse houses hid = some house)
    (hp : dto.pool = []) :
    selectRandomUser rand dto.pool = .error .invalidPool ∧
    houseCreateTask users houses rand freshId uid dto st = (st, .error .invalidPool) ∧
    (houseCreateTask users houses rand freshId uid dto st).2 ≠ .error .emptyPool := by
  have hsel : selectRandomUser rand dto.pool = .error .invalidPool := by
    rw [hp]; rfl
  refine ⟨hsel, ?_, ?_⟩
  · simp [houseCreateTask, hu, hd, hh, hsel]
  · simp [houseCreateTask, hu, hd, hh, hsel]

/-- Witness for C10: the owner of house 1 submits `emptyPoolDto` to the
house-controller endpoint; the selector's `invalidPool` error comes back
and it is not the `emptyPool` error. -/
theorem houseCreateTask_no_pool_check_witness :
    selectRandomUser 0 emptyPoolDto.pool = .error .invalidPool ∧
    houseCreateTask sampleUsers sampleHouses 0 9 "owner" emptyPoolDto [dishesTask] =
      ([dishesTask], .error .invalidPool) ∧
    (houseCreateTask sampleUsers sampleHouses 0 9 "owner" emptyPoolDto [dishesTask]).2 ≠
      .error .emptyPool :=
  houseCreateTask_no_pool_check sampleUsers sampleHouses 0 9 "owner" emptyPoolDto
    [dishesTask] ownerDoc 1 mainHouse rfl rfl rfl rfl

/-- **C7: counterexample.** The claim says a delete of a nonexistent task
fails with `TaskNotFoundError`; on the code, the owner of house 1 deleting
the absent task 99 instead hits the unguarded `task._id` read — a
JavaScript `TypeError`, not `TaskNotFoundError`. -/
theorem delete_missing_task_counterexample :
    deleteTaskFromHouse sampleUsers sampleHouses "owner" 99 [dishesTask] =
      ([dishesTask], .error .jsTypeError) ∧
    ApiError.jsTypeError ≠ ApiError.taskNotFound :=
  ⟨rfl, by decide⟩

/-- **C7 (amended).** For a caller in a household: a non-owner's delete
fails with `NotOwnerError` (store unchanged); an owner's delete of a
nonexistent task fails with a JavaScript `TypeError` (there is no task
existence check, so `TaskNotFoundError` is never raised); an owner's
delete of an existing task removes it and returns the 204-equivalent
success. -/
theorem deleteTask_behaviour (users : List UserDoc) (houses : List House)
    (uid : String) (tid : Nat) (st : List Task)
    (d : UserDoc) (hid : Nat) (house : House)
    (hu : findUserByFirebaseId users uid = some d)
    (hd : d.house = some hid)
    (hh : findHouse houses hid = some house) :
    (house.owner ≠ d._id →
      deleteTaskFromHouse users houses uid tid st = (st, .error .notOwner)) ∧
    (house.owner = d._id → findTask st tid = none →
      deleteTaskFromHouse users houses uid tid st = (st, .error .jsTypeError)) ∧
    (house.owner = d._id → ∀ task, findTask st tid = some task →
      deleteTaskFromHouse users houses uid tid st =
        (st.filter (fun t => !(t._id == task._id)), .ok ())) := by
  refine ⟨?_, ?_, ?_⟩
  · intro hno
    simp only [deleteTaskFromHouse, hu, hd, hh]
    rw [if_neg hno]
  · intro hyes ht
    simp only [deleteTaskFromHouse, hu, hd, hh]
    rw [if_pos hyes, ht]
  · intro hyes task ht
    simp only [deleteTaskFromHouse, hu, hd, hh]
    rw [if_pos hyes, ht]

/-- Witness for the amended C7: member "bob" may not delete task 1;
owner deleting absent task 99 crashes with the `TypeError`; owner deleting
task 1 removes it. -/
theorem deleteTask_behaviour_witness :
    (deleteTaskFromHouse sampleUsers sampleHouses "bob" 1 [dishesTask] =
      ([dishesTask], .error .notOwner)) ∧
    (deleteTaskFromHouse sampleUsers sampleHouses "owner" 99 [dishesTask] =
      ([dishesTask], .error .jsTypeError)) ∧
    (deleteTaskFromHouse sampleUsers sampleHouses "owner" 1 [dishesTask] =
      ([], .ok ())) :=
  ⟨(deleteTask_behaviour sampleUsers sampleHouses "bob" 1 [dishesTask]
      memberDoc 1 mainHouse rfl rfl rfl).1 (by decide),
   (deleteTask_behaviour sampleUsers sampleHouses "owner" 99 [dishesTask]
      ownerDoc 1 mainHouse rfl rfl rfl).2.1 rfl rfl,
   (deleteTask_behaviour sampleUsers sampleHouses "owner" 1 [dishesTask]
      ownerDoc 1 mainHouse rfl rfl rfl).2.2 rfl dishesTask rfl⟩

/-- **C9.** Delete never compares the task's household with the caller's:
a caller who owns their own household deletes any existing task, even one
belonging to a different household, and the delete succeeds. -/
theorem delete_ignores_task_household (users : List UserDoc) (houses : List House)
    (uid : String) (tid : Nat) (st : List Task)
    (d : UserDoc) (hid : Nat) (house : House) (task : Task)
    (hu : findUserByFirebaseId users uid = some d)
    (hd : d.house = some hid)
    (hh : findHouse houses hid = some house)
    (howner : house.owner = d._id)
    (ht : findTask st tid = some task)
    (hcross : task.house ≠ hid) :
    ∃ st2, deleteTaskFromHouse users houses uid tid st = (st2, .ok ()) ∧ task ∉ st2 := by
  refine ⟨st.filter (fun t => !(t._id == task._id)), ?_, ?_⟩
  · simp only [deleteTaskFromHouse, hu, hd, hh]
    rw [if_pos howner, ht]
  · intro hmem
    have := (List.mem_filter.mp hmem).2
    simp at this

/-- Witness for C9: the owner of house 1 deletes `foreignTask`, which
lives in house 2, and the delete succeeds. -/
theorem delete_ignores_task_household_witness :
    ∃ st2, deleteTaskFromHouse sampleUsers sampleHouses "owner" 7 [foreignTask] =
      (st2, .ok ()) ∧ foreignTask ∉ st2 :=
  delete_ignores_task_household sampleUsers sampleHouses "owner" 7 [foreignTask]
    ownerDoc 1 mainHouse foreignTask rfl rfl rfl rfl rfl (by decide)

/-- **C8.** On an existing task (valid id): a caller who is not the
current assignee gets `NotAssignedError` and the store is unchanged; the
assignee completing sets `last_completed` to the current instant and
uncompleting clears it, while every other field of every task — and every
other task — is untouched. -/
theorem markTaskAsComplete_spec (now : Nat) (uid : String) (tid : Nat)
    (st : List Task) (task : Task)
    (ht : findTask st tid = some task) :
    (task.assigned ≠ some uid →
      ∀ c, markTaskAsComplete now uid tid c true st = (st, .error .notAssigned)) ∧
    (task.assigned = some uid →
      ∀ c, ∃ st2, markTaskAsComplete now uid tid c true st = (st2, .ok ()) ∧
        st2.length = st.length ∧
        ∀ i (h1 : i < st.length) (h2 : i < st2.length),
          ((st.get ⟨i, h1⟩)._id ≠ task._id → st2.get ⟨i, h2⟩ = st.get ⟨i, h1⟩) ∧
          ((st.get ⟨i, h1⟩)._id = task._id →
            st2.get ⟨i, h2⟩ =
              { st.get ⟨i, h1⟩ with last_completed := if c then some now else none })) := by
  constructor
  · intro hne c
    simp only [markTaskAsComplete, Bool.not_true, Bool.false_eq_true, if_false, ht]
    rw [if_pos hne]
  · intro ha c
    have hgoal : ∀ v : Option Nat,
        ∀ i (h1 : i < st.length)
          (h2 : i < (st.map (fun t =>
            if t._id == task._id then { t with last_completed := v } else t)).length),
          (((st.map (fun t =>
              if t._id == task._id then { t with last_completed := v } else t)).get ⟨i, h2⟩ =
            if (st.get ⟨i, h1⟩)._id == task._id then
              { st.get ⟨i, h1⟩ with last_completed := v }
            else st.get ⟨i, h1⟩)) := by
      intro v i h1 h2
      simp [List.get_eq_getElem, List.getElem_map]
    cases c
    · refine ⟨st.map (fun t =>
          if t._id == task._id then { t with last_completed := none } else t),
        ?_, List.length_map _ _, ?_⟩
      · simp only [markTaskAsComplete, Bool.not_true, Bool.false_eq_true, if_false, ht]
        rw [if_neg (by simp [ha])]
      · intro i h1 h2
        constructor
        · intro hne2
          rw [hgoal none i h1 h2, if_neg (by simpa using hne2)]
        · intro heq
          rw [hgoal none i h1 h2, if_pos (by simpa using heq)]
          simp
    · refine ⟨st.map (fun t =>
          if t._id == task._id then { t with last_completed := some now } else t),
        ?_, List.length_map _ _, ?_⟩
      · simp only [markTaskAsComplete, Bool.not_true, Bool.false_eq_true, if_false, ht]
        rw [if_neg (by simp [ha])]
        simp
      · intro i h1 h2
        constructor
        · intro hne2
          rw [hgoal (some now) i h1 h2, if_neg (by simpa using hne2)]
        · intro heq
          rw [hgoal (some now) i h1 h2, if_pos (by simpa using heq)]
          simp

/-- Witness for C8: "c" is not assigned to `dishesTask` and is rejected;
assignee "b" completes it at instant 120 and `last_completed` becomes
120 in the stored task. -/
theorem markTaskAsComplete_spec_witness :
    (markTaskAsComplete 120 "c" 1 true true [dishesTask] =
      ([dishesTask], .error .notAssigned)) ∧
    (∃ st2, markTaskAsComplete 120 "b" 1 true true [dishesTask] = (st2, .ok ()) ∧
      st2.length = [dishesTask].length ∧
      ∀ i (h1 : i < [dishesTask].length) (h2 : i < st2.length),
        (([dishesTask].get ⟨i, h1⟩)._id ≠ dishesTask._id →
          st2.get ⟨i, h2⟩ = [dishesTask].get ⟨i, h1⟩) ∧
        (([dishesTask].get ⟨i, h1⟩)._id = dishesTask._id →
          st2.get ⟨i, h2⟩ =
            { [dishesTask].get ⟨i, h1⟩ with
                last_completed := if true then some 120 else none })) :=
  ⟨(markTaskAsComplete_spec 120 "c" 1 [dishesTask] dishesTask rfl).1 (by decide) true,
   (markTaskAsComplete_spec 120 "b" 1 [dishesTask] dishesTask rfl).2 rfl true⟩

/-- **C3: code evaluated at the failing input.** The owner edits
`dishesTask` (assigned to "b"): once with a pool that still contains "b"
and once with no pool at all.  In both cases the stored task comes back
with `assigned` cleared to unset, not preserved — the controller
overwrites the `assigned` key of the update payload with `undefined`
whenever the reselection branch does not fire. -/
theorem modifyTask_clears_assigned :
    dishesTask.assigned = some "b" ∧
    (modifyTask sampleUsers sampleHouses 0 "owner" 1
        ⟨none, none, some ["b", "c"]⟩ [dishesTask] =
      ([{ dishesTask with assigned := none }], .ok ())) ∧
    (modifyTask sampleUsers sampleHouses 0 "owner" 1
        ⟨none, none, none⟩ [dishesTask] =
      ([{ dishesTask with assigned := none }], .ok ())) :=
  ⟨rfl, rfl, rfl⟩

/-- **C4.** An owner edit that supplies a non-empty pool excluding the
task's current assignee reassigns the task through the Assignment
Selector, so the stored task's new assignee is an element of the new
pool. -/
theorem modifyTask_reassigns_from_new_pool (users : List UserDoc) (houses : List House)
    (rand : Nat) (uid : String) (tid : Nat) (dto : UpdateHouseTasksDto) (st : List Task)
    (d : UserDoc) (hid : Nat) (house : House) (task : Task) (p : List String) (a : String)
    (hu : findUserByFirebaseId users uid = some d)
    (hd : d.house = some hid)
    (hh : findHouse houses hid = some house)
    (ht : findTask st tid = some task)
    (howner : house.owner = d._id)
    (hp : dto.pool = some p) (hne : p ≠ [])
    (ha : task.assigned = some a) (hout : a ∉ p) :
    ∃ x, selectRandomUser rand p = .ok x ∧ x ∈ p ∧
      ∃ st2, modifyTask users houses rand uid tid dto st = (st2, .ok ()) ∧
        ∀ u, findTask st2 tid = some u → u.assigned = some x := by
  obtain ⟨x, hsel, hmem⟩ := selectRandomUser_ok rand p hne
  refine ⟨x, hsel, hmem, ?_⟩
  have hres : modifyTask users houses rand uid tid dto st =
      (st.map (fun t => if t._id == task._id then
        applyEditPayload t ⟨dto.name, dto.description, dto.pool, some x⟩ else t),
        .ok ()) := by
    simp only [modifyTask, hu, hd, hh, ht, hp]
    rw [if_neg (by simp [howner])]
    simp only [ha, Option.map_some', Option.getD_some]
    rw [if_neg (by simpa using hout), hsel]
  refine ⟨_, hres, ?_⟩
  intro u hu2
  have hcomp : ((fun t : Task => t._id == tid) ∘ (fun t =>
      if t._id == task._id then
        applyEditPayload t ⟨dto.name, dto.description, dto.pool, some x⟩ else t)) =
      (fun t : Task => t._id == tid) := by
    funext t
    simp only [Function.comp]
    split <;> rfl
  unfold findTask at hu2 ht
  rw [List.find?_map, hcomp, ht, Option.map_some', Option.some.injEq] at hu2
  rw [← hu2]
  simp [applyEditPayload]

/-- Witness for C4: the owner re-pools `dishesTask` (assigned "b") to
`["c"]`; the selector picks "c" and the stored task is assigned to "c". -/
theorem modifyTask_reassigns_from_new_pool_witness :
    ∃ x, selectRandomUser 0 ["c"] = .ok x ∧ x ∈ ["c"] ∧
      ∃ st2, modifyTask sampleUsers sampleHouses 0 "owner" 1
          ⟨none, none, some ["c"]⟩ [dishesTask] = (st2, .ok ()) ∧
        ∀ u, findTask st2 1 = some u → u.assigned = some x :=
  modifyTask_reassigns_from_new_pool sampleUsers sampleHouses 0 "owner" 1
    ⟨none, none, some ["c"]⟩ [dishesTask] ownerDoc 1 mainHouse dishesTask
    ["c"] "b" rfl rfl rfl rfl rfl rfl (by decide) rfl (by decide)

/-- `updateTask` preserves the store's length. -/
theorem updateTask_length (s : List Task) (tid : Nat) (u : Task) :
    (updateTask s tid u).length = s.length :=
  List.length_map _ _

/-- Folding the rollover write-backs over the store preserves its length. -/
theorem foldl_updateTask_length (L : List (Nat × Task)) (s : List Task) :
    (L.foldl (fun s2 p => updateTask s2 p.1 p.2) s).length = s.length := by
  induction L generalizing s with
  | nil => rfl
  | cons q L ih => rw [List.foldl_cons, ih, updateTask_length]

/-- A stored task whose id is hit by none of the rollover write-backs is
left exactly in place by the write-back fold. -/
theorem foldl_updateTask_get (L : List (Nat × Task)) :
    ∀ (s : List Task) (i : Nat) (h1 : i < s.length)
      (h2 : i < (L.foldl (fun s2 p => updateTask s2 p.1 p.2) s).length),
      (∀ q ∈ L, q.1 ≠ (s.get ⟨i, h1⟩)._id) →
      (L.foldl (fun s2 p => updateTask s2 p.1 p.2) s).get ⟨i, h2⟩ = s.get ⟨i, h1⟩ := by
  induction L with
  | nil => intro s i h1 h2 _; rfl
  | cons q L ih =>
    intro s i h1 h2 hid
    have hlen : i < (updateTask s q.1 q.2).length := by
      rw [updateTask_length]; exact h1
    have hstep : (updateTask s q.1 q.2).get ⟨i, hlen⟩ = s.get ⟨i, h1⟩ := by
      simp only [updateTask, List.get_eq_getElem, List.getElem_map]
      rw [if_neg (by
        simp only [beq_iff_eq]
        exact fun h => hid q (List.mem_cons_self q L) h.symm)]
    have htail : (L.foldl (fun s2 p => updateTask s2 p.1 p.2)
        (updateTask s q.1 q.2)).get ⟨i, h2⟩ = (updateTask s q.1 q.2).get ⟨i, hlen⟩ := by
      refine ih (updateTask s q.1 q.2) i hlen h2 ?_
      intro r hr
      rw [hstep]
      exact hid r (List.mem_cons_of_mem q hr)
    exact htail.trans hstep

/-- The id attached to each rollover produced by `checkRecurrence` is the
id of one of the evaluated tasks. -/
theorem checkRecurrence_fst (rand now : Nat) (L : List Task) (q : Nat × Task)
    (hq : q ∈ checkRecurrence rand now L) : ∃ u ∈ L, u._id = q.1 := by
  unfold checkRecurrence at hq
  obtain ⟨u, hu, hmap⟩ := List.mem_filterMap.mp hq
  refine ⟨u, hu, ?_⟩
  cases hev : (evaluate rand now u).2 with
  | none => rw [hev] at hmap; simp at hmap
  | some w =>
    rw [hev, Option.map_some', Option.some.injEq] at hmap
    rw [← hmap]

/-- **C5.** A list-tasks request by a caller in a household evaluates and
persists rollovers only for tasks of the caller's household (given
store-unique task ids, every task of another household is returned
untouched at its position), and the response is exactly the caller's
household's tasks re-read from the post-write store. -/
theorem getTasksForHouse_frame (users : List UserDoc) (houses : List House)
    (rand now : Nat) (uid : String) (st : List Task)
    (d : UserDoc) (hid : Nat) (house : House)
    (hu : findUserByFirebaseId users uid = some d)
    (hd : d.house = some hid)
    (hh : findHouse houses hid = some house)
    (hnd : (st.map Task._id).Nodup) :
    ∃ st2, getTasksForHouse users houses rand now uid st =
        (st2, .ok (st2.filter (fun t => t.house == house._id))) ∧
      st2.length = st.length ∧
      (∀ i (h1 : i < st.length) (h2 : i < st2.length),
        (st.get ⟨i, h1⟩).house ≠ house._id → st2.get ⟨i, h2⟩ = st.get ⟨i, h1⟩) ∧
      (∀ t ∈ st2.filter (fun t => t.house == house._id), t.house = house._id) := by
  refine ⟨(checkRecurrence rand now (st.filter (fun t => t.house == house._id))).foldl
      (fun s2 p => updateTask s2 p.1 p.2) st, ?_, foldl_updateTask_length _ _, ?_, ?_⟩
  · simp only [getTasksForHouse, hu, hd, hh]
  · intro i h1 h2 hne
    refine foldl_updateTask_get _ st i h1 h2 ?_
    intro q hq hqeq
    obtain ⟨u, humem, huid⟩ := checkRecurrence_fst rand now _ q hq
    have hufilter := List.mem_filter.mp humem
    have huhouse : u.house = house._id := by simpa using hufilter.2
    have hueq : u = st.get ⟨i, h1⟩ :=
      List.inj_on_of_nodup_map hnd hufilter.1 (List.get_mem st i h1)
        (by rw [huid, hqeq])
    exact hne (by rw [← hueq]; exact huhouse)
  · intro t htmem
    simpa using (List.mem_filter.mp htmem).2

/-- Witness for C5: the owner of house 1 lists tasks over the store
`[dishesTask, foreignTask]` (ids 1 and 7); the frame and response
properties hold at that concrete input. -/
theorem getTasksForHouse_frame_witness :
    ∃ st2, getTasksForHouse sampleUsers sampleHouses 0 150 "owner"
        [dishesTask, foreignTask] =
        (st2, .ok (st2.filter (fun t => t.house == mainHouse._id))) ∧
      st2.length = [dishesTask, foreignTask].length ∧
      (∀ i (h1 : i < [dishesTask, foreignTask].length) (h2 : i < st2.length),
        ([dishesTask, foreignTask].get ⟨i, h1⟩).house ≠ mainHouse._id →
          st2.get ⟨i, h2⟩ = [dishesTask, foreignTask].get ⟨i, h1⟩) ∧
      (∀ t ∈ st2.filter (fun t => t.house == mainHouse._id),
        t.house = mainHouse._id) :=
  getTasksForHouse_frame sampleUsers sampleHouses 0 150 "owner"
    [dishesTask, foreignTask] ownerDoc 1 mainHouse rfl rfl rfl (by decide)

end Platform
